import Mathlib

/-
  Verification development for `dreambooth/dataset/db_dataset.py` (class
  `DbDataset`): a shallow embedding of the bucketing / caching / sampling
  engine, followed by theorems settling the specification claims.

  Modelling conventions:
  * Python dicts become insertion-ordered association lists (`AList`).
  * Tensors (latents, token ids, embeddings, images) are abstracted as
    natural numbers; external collaborators (VAE, text encoders, tokenizer,
    image loader) are oracle functions that may fail (`Except Unit _`),
    modelling the exceptions they can raise.
  * A raised-and-propagating Python exception is an `Except.error` carrying
    the mutated-so-far state (Python mutations before a raise persist).
  * Randomness (`random.shuffle`, `random.choice`) is an explicit `Rng`
    record of reordering functions and an indexed choice stream.
-/

set_option maxHeartbeats 1000000

namespace DbData

/-- Sample path identifier (image file path in the source). -/
abbrev SPath := String

/-- Caption text. -/
abbrev Caption := String

/-- One `(path, caption, is_class_img)` tuple as stored in the bucket tables,
the flattened `sample_cache`, and the per-bucket pairing lists. -/
abbrev Entry := SPath × Caption × Bool

/-- Bucket key `(width, height, concept_index)` (`di` in `sort_images`). -/
abbrev BKey := Nat × Nat × Nat

/-- Latent tensors abstracted as naturals. -/
abbrev Latent := Nat

/-- Tokenized caption ids abstracted as a natural. -/
abbrev Ids := Nat

/-- A Python dict modeled as an insertion-ordered association list. -/
abbrev AList (κ α : Type) := List (κ × α)

/-- Dict lookup `m[k]` returning `none` on a missing key. -/
def alookup {κ α : Type} [DecidableEq κ] : AList κ α → κ → Option α
  | [], _ => none
  | (k', v') :: rest, k => if k' = k then some v' else alookup rest k

/-- Dict membership `k in m`. -/
def amem {κ α : Type} [DecidableEq κ] (m : AList κ α) (k : κ) : Bool :=
  (alookup m k).isSome

/-- Dict assignment `m[k] = v`: replace the value in place if the key exists,
else append a fresh binding at the end (Python insertion order). -/
def ainsert {κ α : Type} [DecidableEq κ] : AList κ α → κ → α → AList κ α
  | [], k, v => [(k, v)]
  | (k', v') :: rest, k, v =>
      if k' = k then (k', v) :: rest else (k', v') :: ainsert rest k v

/-- Dict deletion `del m[k]` (no-op on a missing key; the source always guards
the delete with a membership test, which makes the two coincide). -/
def aerase {κ α : Type} [DecidableEq κ] : AList κ α → κ → AList κ α
  | [], _ => []
  | (k', v') :: rest, k => if k' = k then rest else (k', v') :: aerase rest k

/-- `live.update(other)` for dicts: every binding of `other` is written into
`live`, overwriting existing keys in place and appending new ones. -/
def aupdate {κ α : Type} [DecidableEq κ] (live other : AList κ α) : AList κ α :=
  other.foldl (fun acc kv => ainsert acc kv.1 kv.2) live

/-- `m.setdefault(k, []).append(e)`: append `e` to the list bound at `k`,
creating the binding if absent (used by `sort_images`). -/
def aappend {κ : Type} [DecidableEq κ] : AList κ (List Entry) → κ → Entry → AList κ (List Entry)
  | [], k, e => [(k, [e])]
  | (k', l) :: rest, k, e =>
      if k' = k then (k', l ++ [e]) :: rest else (k', l) :: aappend rest k e

/-- `set(a.keys()) == set(b.keys())` for two dicts. -/
def sameKeySet {κ α β : Type} [DecidableEq κ] (a : AList κ α) (b : AList κ β) : Bool :=
  (a.all fun kv => amem b kv.1) && (b.all fun kv => amem a kv.1)

/-- `list.index(p)` — position of the first occurrence, `none` when absent
(where CPython raises `ValueError`). -/
def idxOf : List SPath → SPath → Option Nat
  | [], _ => none
  | q :: rest, p => if q = p then some 0 else (idxOf rest p).map fun n => n + 1

/-- The configuration flags of `DbDataset.__init__` that the claims depend on. -/
structure Config where
  numTokenizers : Nat
  shuffle_tags : Bool
  strict_tokens : Bool
  not_pad_tokens : Bool
  debug_dataset : Bool
  hasVae : Bool

/-- External collaborators (VAE, SDXL embedding pipeline, tokenizer, tag
shuffler, strict-token builder, image loader/transform), as oracle functions.
`Except Unit _` results model the exceptions a collaborator can raise. -/
structure Oracles where
  vae_encode : SPath → Nat × Nat → Except Unit Latent
  compute_embeddings : Nat × Nat → Caption → Except Unit (Nat × Nat)
  tokenize : Caption → Bool → Except Unit Ids
  shuffleTags : Caption → Caption
  strictTokens : Caption → Caption
  open_and_trim : SPath → Nat × Nat → Except Unit Nat
  transform : Nat → Nat

/-- The mutable fields of a `DbDataset` instance that the claims observe. -/
structure DState where
  latents_cache : AList SPath Latent
  caption_cache : AList SPath Ids
  sdxl_cache : AList SPath (Nat × Nat)
  train_dict : AList BKey (List Entry)
  class_dict : AList BKey (List Entry)
  sample_dict : AList BKey (List Entry)
  sample_cache : List Entry
  sample_indices : List SPath
  resolutions : List BKey
  image_index : Nat
  db_length : Nat
  cache_latents : Bool
  deriving DecidableEq, Repr

/-- The empty dataset state right after `__init__`. -/
def dstate0 : DState :=
  ⟨[], [], [], [], [], [], [], [], [], 0, 0, false⟩

/-- State of an `Except DState DState` outcome (ok or carried by the error). -/
def exStateD : Except DState DState → DState
  | .ok s => s
  | .error s => s

/-- Whether an `Except DState DState` outcome is a normal return. -/
def isOkD : Except DState DState → Bool
  | .ok _ => true
  | .error _ => false

/-- `DbDataset.cache_latent`: when a VAE is configured, open/trim the image,
transform it, encode it and store the latent under the path. A collaborator
exception propagates with the state unchanged (the dict write is last). -/
def cache_latent (cfg : Config) (o : Oracles) (s : DState) (p : SPath) (res : Nat × Nat) :
    Except DState DState :=
  if cfg.hasVae then
    match o.vae_encode p res with
    | .ok l => .ok {s with latents_cache := ainsert s.latents_cache p l}
    | .error _ => .error s
  else .ok s

/-- The caption rewriting done by `cache_caption` before tokenizing:
optional tag shuffling, then optional strict-token bracketing. -/
def capTrans (cfg : Config) (o : Oracles) (c : Caption) : Caption :=
  let c1 := if cfg.shuffle_tags then o.shuffleTags c else c
  if cfg.strict_tokens then o.strictTokens c1 else c1

/-- `DbDataset.cache_caption`: when a tokenizer exists and the path is uncached
(or debug mode forces recompute), rewrite the caption, tokenize it, and — only
when tag shuffling is disabled — memoize the ids under the path. Returns the
(possibly rewritten) caption and the computed ids (`none` when skipped). -/
def cache_caption (cfg : Config) (o : Oracles) (s : DState) (p : SPath) (c : Caption) :
    Except DState (DState × Caption × Option Ids) :=
  if 0 < cfg.numTokenizers ∧ ((alookup s.caption_cache p).isNone ∨ cfg.debug_dataset = true) then
    match o.tokenize (capTrans cfg o c) cfg.not_pad_tokens with
    | .error _ => .error s
    | .ok ids =>
        if cfg.shuffle_tags then .ok (s, capTrans cfg o c, some ids)
        else .ok ({s with caption_cache := ainsert s.caption_cache p ids},
                  capTrans cfg o c, some ids)
  else .ok (s, c, none)

/-- Step 1 of the `try:` body of the per-image loop of `cache_images`:
`if img_path not in latents_cache: if self.cache_latents and not
self.debug_dataset: self.cache_latent(img_path, reso)`. `staging` is the local
`latents_cache` dict loaded from disk. -/
def cob_step1 (cfg : Config) (o : Oracles) (staging : AList SPath Latent)
    (reso : Nat × Nat) (s : DState) (p : SPath) : Except DState DState :=
  if (alookup staging p).isNone then
    if s.cache_latents && !cfg.debug_dataset then cache_latent cfg o s p reso
    else .ok s
  else .ok s

/-- Step 2 of the `try:` body: the SDXL conditional, whose `else` branch runs
the staging lookup `self.latents_cache[img_path] = latents_cache[img_path]`
(a `KeyError`, modelled as `.error`, when the path is not staged). -/
def cob_step2 (cfg : Config) (o : Oracles) (staging : AList SPath Latent)
    (reso : Nat × Nat) (s1 : DState) (p : SPath) (c : Caption) : Except DState DState :=
  if cfg.numTokenizers = 2 && !(amem s1.sdxl_cache p) then
    match o.compute_embeddings reso c with
    | .ok fo => .ok {s1 with sdxl_cache := ainsert s1.sdxl_cache p fo}
    | .error _ => .error s1
  else
    match alookup staging p with
    | some v => .ok {s1 with latents_cache := ainsert s1.latents_cache p v}
    | none => .error s1

/-- Step 3 of the `try:` body: `if not self.shuffle_tags:
self.cache_caption(img_path, cap)`. -/
def cob_step3 (cfg : Config) (o : Oracles) (s2 : DState) (p : SPath) (c : Caption) :
    Except DState DState :=
  if !cfg.shuffle_tags then
    match cache_caption cfg o s2 p c with
    | .ok (s', _, _) => .ok s'
    | .error s' => .error s'
  else .ok s2

/-- The `try:` body of the per-image loop of `cache_images` for one
`(path, caption, is_prior)` tuple: the three artifact steps followed by the
two list appends. Mirrors the source exactly, misplaced `else` included. -/
def cache_one_body (cfg : Config) (o : Oracles) (staging : AList SPath Latent)
    (reso : Nat × Nat) (s : DState) (e : Entry) : Except DState DState :=
  match cob_step1 cfg o staging reso s e.1 with
  | .error s' => .error s'
  | .ok s1 =>
    match cob_step2 cfg o staging reso s1 e.1 e.2.1 with
    | .error s' => .error s'
    | .ok s2 =>
      match cob_step3 cfg o s2 e.1 e.2.1 with
      | .error s' => .error s'
      | .ok s3 =>
        .ok {s3 with
              sample_indices := s3.sample_indices ++ [e.1],
              sample_cache := s3.sample_cache ++ [(e.1, e.2.1, e.2.2)]}

/-- The `except Exception:` handler of the per-image loop: delete the caption
entry, then attempt `del self.sample_cache[(p, c, r)]` and
`del self.sample_indices[p]` — both are `del` on a *list* with a non-integer
key, a `TypeError` that propagates (modelled as `.error`) whenever the guarding
membership test is true — and finally delete the latent entry. Note the
handler never touches `sdxl_cache`. -/
def cache_one_handler (s : DState) (e : Entry) : Except DState DState :=
  if (e.1, e.2.1, e.2.2) ∈ s.sample_cache then
    .error {s with caption_cache := aerase s.caption_cache e.1}
  else if e.1 ∈ s.sample_indices then
    .error {s with caption_cache := aerase s.caption_cache e.1}
  else
    .ok {s with caption_cache := aerase s.caption_cache e.1,
                latents_cache := aerase s.latents_cache e.1}

/-- One iteration of the `cache_images` loop: run the body, and on an
exception run the handler (whose own `TypeError` propagates uncaught). -/
def cache_one (cfg : Config) (o : Oracles) (staging : AList SPath Latent)
    (reso : Nat × Nat) (s : DState) (e : Entry) : Except DState DState :=
  match cache_one_body cfg o staging reso s e with
  | .ok s' => .ok s'
  | .error sErr => cache_one_handler sErr e

/-- The per-image loop of `cache_images` over a bucket's image list. -/
def cache_images_go (cfg : Config) (o : Oracles) (staging : AList SPath Latent)
    (reso : Nat × Nat) : DState → List Entry → Except DState DState
  | s, [] => .ok s
  | s, e :: rest =>
      match cache_one cfg o staging reso s e with
      | .ok s' => cache_images_go cfg o staging reso s' rest
      | .error s' => .error s'

/-- `cache_images(images, reso, pbar)`: loop over the images, then merge the
staging dict into the live cache (`self.latents_cache.update(latents_cache)`).
The merge does not run when the loop escaped with an uncaught error. -/
def cache_images (cfg : Config) (o : Oracles) (staging : AList SPath Latent)
    (reso : Nat × Nat) (s : DState) (es : List Entry) : Except DState DState :=
  match cache_images_go cfg o staging reso s es with
  | .ok s' => .ok {s' with latents_cache := aupdate s'.latents_cache staging}
  | .error s' => .error s'

/-- The bucket sweep of `make_buckets_with_caching` (lines 393-423): for each
non-empty instance bucket, record the resolution, cache the instance images,
cache the same-key class images when present, and accumulate
`example_len = inst_count if class_count == 0 else inst_count * 2` into the
per-bucket table and the running total. -/
def bucket_pass_go (cfg : Config) (o : Oracles) (staging : AList SPath Latent) :
    DState → AList BKey (List Entry) → Nat → AList BKey Nat →
    Except DState (DState × Nat × AList BKey Nat)
  | s, [], tot, blen => .ok (s, tot, blen)
  | s, (k, imgs) :: rest, tot, blen =>
    if imgs = [] then bucket_pass_go cfg o staging s rest tot blen
    else
      match cache_images cfg o staging (k.1, k.2.1)
          {s with resolutions := s.resolutions ++ [k]} imgs with
      | .error s' => .error s'
      | .ok s1 =>
        match alookup s1.class_dict k with
        | some cimgs =>
          match cache_images cfg o staging (k.1, k.2.1) s1 cimgs with
          | .error s' => .error s'
          | .ok s2 =>
            bucket_pass_go cfg o staging s2 rest
              (tot + (if cimgs.length = 0 then imgs.length else imgs.length * 2))
              (blen ++ [(k, if cimgs.length = 0 then imgs.length else imgs.length * 2)])
        | none =>
          bucket_pass_go cfg o staging s1 rest (tot + imgs.length) (blen ++ [(k, imgs.length)])

/-- The cache-save block of `make_buckets_with_caching` inside `try:`: when the
live key set differs from the staging key set, remove the existing file and
write a fresh snapshot of the full live cache. The error payload is the
filesystem state at the raise point (file already removed, snapshot unwritten)
when the save fails. `fs` is the on-disk file: `none` = absent. -/
def save_body (live staging : AList SPath Latent) (fs : Option (AList SPath Latent))
    (writeOk : Bool) : Except (Option (AList SPath Latent)) (Option (AList SPath Latent)) :=
  if sameKeySet live staging then .ok fs
  else
    if writeOk then .ok (some live) else .error none

/-- The cache-save block with its `except: pass`: any failure is swallowed and
the filesystem is left as the failing body left it. -/
def save_step (live staging : AList SPath Latent) (fs : Option (AList SPath Latent))
    (writeOk : Bool) : Option (AList SPath Latent) :=
  match save_body live staging fs writeOk with
  | .ok fs' => fs'
  | .error fs' => fs'

/-- Observable result of `make_buckets_with_caching`: the final dataset state,
the on-disk cache file afterwards, the logged per-bucket example counts
(`bucket_len`) and the running total (`total_len`). -/
structure MBResult where
  state : DState
  fsOut : Option (AList SPath Latent)
  bucket_len : AList BKey Nat
  total_len : Nat
  deriving DecidableEq, Repr

/-- `make_buckets_with_caching(vae)` over already-sorted bucket tables
(`sort_images` is modelled separately by `sort_images`): set `cache_latents`
from the VAE, load the staging dict from the disk file when present, sweep the
buckets, run the guarded cache save, and store the total in `_length`. -/
def make_buckets (cfg : Config) (o : Oracles) (s : DState)
    (fsIn : Option (AList SPath Latent)) (writeOk : Bool) : Except DState MBResult :=
  match bucket_pass_go cfg o (fsIn.getD []) {s with cache_latents := cfg.hasVae}
      s.train_dict 0 [] with
  | .error sE => .error sE
  | .ok (s1, tot, blen) =>
    .ok ⟨{s1 with db_length := tot},
         save_step s1.latents_cache (fsIn.getD []) fsIn writeOk, blen, tot⟩

/-- `DbDataset.__len__`. -/
def dataset_len (s : DState) : Nat := s.db_length

/-- One prompt record (`PromptData`) as consumed by `sort_images`. -/
structure PData where
  src_image : SPath
  resolution : Nat × Nat
  prompt : Caption
  concept_index : Nat

/-- `sort_images(img_data, resos, target_dict, is_class_img)`: bucket each
record under `(closest_resolution(w, h, resos), concept_index)` with the
`is_class_img` flag, preserving insertion order. `closest` is the external
`closest_resolution` collaborator. -/
def sort_images (closest : Nat → Nat → List (Nat × Nat) → Nat × Nat)
    (imgData : List PData) (resos : List (Nat × Nat))
    (target : AList BKey (List Entry)) (isClass : Bool) : AList BKey (List Entry) :=
  imgData.foldl
    (fun acc pd =>
      let reso := closest pd.resolution.1 pd.resolution.2 resos
      aappend acc (reso.1, reso.2, pd.concept_index) (pd.src_image, pd.prompt, isClass))
    target

/-- Randomness supply for `shuffle_buckets`: the outcome of
`random.shuffle(keys)`, the outcome of `random.shuffle(train_dict[key])` per
key, and an indexed stream backing successive `random.choice` calls. -/
structure Rng where
  permKeys : List BKey → List BKey
  permEntries : BKey → List Entry → List Entry
  choice : Nat → Nat

/-- `random.choice(l)` backed by a stream value `n`: element `n % len(l)`
(the source never calls it on an empty list; the default is unreachable). -/
def pick (l : List Entry) (n : Nat) : Entry :=
  match l with
  | [] => ("", "", false)
  | x :: xs => (x :: xs).get ⟨n % (x :: xs).length, Nat.mod_lt _ (Nat.succ_pos xs.length)⟩

/-- The inner loop of `shuffle_buckets` over one bucket's (already reordered)
instance entries: append each instance entry to the pairing list, the batch
index list and the batch sample list, and — when the key has a class bucket —
draw one class entry and append it right after, consuming one stream value.
Returns (pairing list, batch index suffix, batch sample suffix, next stream
position). -/
def pair_entries (cd : AList BKey (List Entry)) (rg : Rng) (k : BKey) :
    List Entry → Nat → List Entry × List SPath × List Entry × Nat
  | [], c => ([], [], [], c)
  | e :: rest, c =>
    match alookup cd k with
    | some ce =>
        (e :: pick ce (rg.choice c) :: (pair_entries cd rg k rest (c + 1)).1,
         e.1 :: (pick ce (rg.choice c)).1 :: (pair_entries cd rg k rest (c + 1)).2.1,
         e :: pick ce (rg.choice c) :: (pair_entries cd rg k rest (c + 1)).2.2.1,
         (pair_entries cd rg k rest (c + 1)).2.2.2)
    | none =>
        (e :: (pair_entries cd rg k rest c).1,
         e.1 :: (pair_entries cd rg k rest c).2.1,
         e :: (pair_entries cd rg k rest c).2.2.1,
         (pair_entries cd rg k rest c).2.2.2)

/-- Result of `shuffle_buckets`: the per-bucket pairing table and the two
flat batch lists. -/
structure ShufRes where
  sample_dict : AList BKey (List Entry)
  batch_indices : List SPath
  batch_samples : List Entry
  deriving DecidableEq, Repr

/-- The bucket's instance entries as iterated by `shuffle_buckets`:
`random.shuffle(self.train_dict[key])` reorders them in place unless in debug
mode. -/
def shufEntries (debug : Bool) (train : AList BKey (List Entry)) (rg : Rng) (k : BKey) :
    List Entry :=
  if debug then (alookup train k).getD []
  else rg.permEntries k ((alookup train k).getD [])

/-- The key loop of `shuffle_buckets`: for each key, reorder the bucket's
instance list (identity in debug mode), build its pairing list, and extend the
batch lists. -/
def shuffle_go (debug : Bool) (train cd : AList BKey (List Entry)) (rg : Rng) :
    List BKey → AList BKey (List Entry) → List SPath → List Entry → Nat → ShufRes
  | [], sd, bi, bs, _ => ⟨sd, bi, bs⟩
  | k :: ks, sd, bi, bs, c =>
    shuffle_go debug train cd rg ks
      (ainsert sd k (pair_entries cd rg k (shufEntries debug train rg k) c).1)
      (bi ++ (pair_entries cd rg k (shufEntries debug train rg k) c).2.1)
      (bs ++ (pair_entries cd rg k (shufEntries debug train rg k) c).2.2.1)
      (pair_entries cd rg k (shufEntries debug train rg k) c).2.2.2

/-- `DbDataset.shuffle_buckets`: take the instance keys (reordered unless in
debug mode) and run the key loop from empty accumulators. Note the class draw
in the inner loop is *not* guarded by debug mode in the source. -/
def shuffle_buckets (debug : Bool) (train cd : AList BKey (List Entry)) (rg : Rng) : ShufRes :=
  let keys := train.map Prod.fst
  shuffle_go debug train cd rg (if debug then keys else rg.permKeys keys) [] [] [] 0

/-- `DbDataset.get_example(res)`: look up the pairing list, clamp the stored
cursor, read (without removing) the entry at the cursor, resolve its path via
`sample_indices.index`, advance the cursor with wraparound, and return
`(flattened_index, repeats)` where `repeats = 1` signals a completed cycle.
`.error` models the `KeyError` / `IndexError` / `ValueError` escapes. -/
def get_example (s : DState) (res : BKey) : Except Unit (DState × Nat × Nat) :=
  match alookup s.sample_dict res with
  | none => .error ()
  | some bucket =>
    match bucket.get? (if bucket.length ≤ s.image_index then 0 else s.image_index) with
    | none => .error ()
    | some e =>
      match idxOf s.sample_indices e.1 with
      | none => .error ()
      | some image_index =>
        if bucket.length ≤ (if bucket.length ≤ s.image_index then 0 else s.image_index) + 1 then
          .ok ({s with image_index := 0}, image_index, 1)
        else
          .ok ({s with image_index :=
                  (if bucket.length ≤ s.image_index then 0 else s.image_index) + 1},
               image_index, 0)

/-- Sequencing for `get_example` iteration: run one call's outcome, then the
continuation on the successor state, prepending the returned pair. -/
def ge_iter_step (r : Except Unit (DState × Nat × Nat))
    (cont : DState → Except Unit (DState × List (Nat × Nat))) :
    Except Unit (DState × List (Nat × Nat)) :=
  match r with
  | .error e => .error e
  | .ok (s', pr) =>
    match cont s' with
    | .ok (s'', ps) => .ok (s'', pr :: ps)
    | .error e => .error e

/-- `n` consecutive `get_example` calls, collecting the returned
`(flattened_index, repeats)` pairs. -/
def get_example_iter (s : DState) (res : BKey) : Nat → Except Unit (DState × List (Nat × Nat))
  | 0 => .ok (s, [])
  | n + 1 => ge_iter_step (get_example s res) (fun s' => get_example_iter s' res n)

/-- The image part of `DbDataset.load_image`: the cached latent (a `KeyError`
when absent) when latent caching is on, else a freshly loaded-and-transformed
image. -/
def li_image (o : Oracles) (s : DState) (p : SPath) (res : Nat × Nat) :
    Except DState (SPath ⊕ Nat) :=
  if s.cache_latents then
    match alookup s.latents_cache p with
    | some v => .ok (.inr v)
    | none => .error s
  else
    match o.open_and_trim p res with
    | .ok img => .ok (.inr (o.transform img))
    | .error _ => .error s

/-- `DbDataset.load_image(image_path, caption, res)`: in debug mode, a marker
pair; otherwise the image part, and the ids recomputed through `cache_caption`
when tag shuffling is on, else read from the caption cache (a `KeyError` when
absent). -/
def load_image (cfg : Config) (o : Oracles) (s : DState) (p : SPath) (c : Caption)
    (res : Nat × Nat) : Except DState (DState × (SPath ⊕ Nat) × (Caption ⊕ Option Ids)) :=
  if cfg.debug_dataset then .ok (s, .inl p, .inl c)
  else
    match li_image o s p res with
    | .error s' => .error s'
    | .ok img =>
      if cfg.shuffle_tags then
        match cache_caption cfg o s p c with
        | .ok (s', _, ids) => .ok (s', img, .inr ids)
        | .error s' => .error s'
      else
        match alookup s.caption_cache p with
        | some ids => .ok (s, img, .inr (some ids))
        | none => .error s

/-- State component of a `cache_caption` outcome. -/
def ccState : Except DState (DState × Caption × Option Ids) → DState
  | .ok (s, _, _) => s
  | .error s => s

/-- State component of a `load_image` outcome. -/
def liState : Except DState (DState × (SPath ⊕ Nat) × (Caption ⊕ Option Ids)) → DState
  | .ok (s, _, _) => s
  | .error s => s

/-- State component of a `get_example` outcome (`dstate0` on an escape). -/
def geState : Except Unit (DState × Nat × Nat) → DState
  | .ok (s, _, _) => s
  | .error _ => dstate0

/-- Whether a `get_example` outcome is a normal return. -/
def isOkGE : Except Unit (DState × Nat × Nat) → Bool
  | .ok _ => true
  | .error _ => false

/-- `s'` differs from `s` at most in the three artifact caches. -/
def cacheOnly3 (s s' : DState) : Prop :=
  ∃ lc cc sx, s' = {s with latents_cache := lc, caption_cache := cc, sdxl_cache := sx}

theorem cacheOnly3_refl (s : DState) : cacheOnly3 s s :=
  ⟨s.latents_cache, s.caption_cache, s.sdxl_cache, rfl⟩

theorem cacheOnly3_trans {s t u : DState} (h1 : cacheOnly3 s t) (h2 : cacheOnly3 t u) :
    cacheOnly3 s u := by
  obtain ⟨a, b, c, rfl⟩ := h1
  obtain ⟨d, e, f, rfl⟩ := h2
  exact ⟨d, e, f, rfl⟩

theorem exStateD_error {r : Except DState DState} {s' : DState} (h : r = .error s') :
    exStateD r = s' := by rw [h]; rfl

theorem exStateD_ok {r : Except DState DState} {s' : DState} (h : r = .ok s') :
    exStateD r = s' := by rw [h]; rfl

theorem alookup_mem {κ α : Type} [DecidableEq κ] :
    ∀ (m : AList κ α) (k : κ) (v : α), alookup m k = some v → (k, v) ∈ m := by
  intro m k v
  induction m with
  | nil => intro h; cases h
  | cons kv rest ih =>
      intro h
      obtain ⟨k', v'⟩ := kv
      unfold alookup at h
      by_cases hk : k' = k
      · simp only [hk, if_pos rfl] at h
        cases h
        subst hk
        exact List.mem_cons_self _ _
      · simp only [if_neg hk] at h
        exact List.mem_cons_of_mem _ (ih h)

theorem alookup_ainsert {κ α : Type} [DecidableEq κ] (m : AList κ α) (k k' : κ) (v : α) :
    alookup (ainsert m k v) k' = if k = k' then some v else alookup m k' := by
  induction m with
  | nil =>
      by_cases h : k = k' <;> simp [ainsert, alookup, h]
  | cons kv rest ih =>
      obtain ⟨k0, v0⟩ := kv
      by_cases h0 : k0 = k
      · subst h0
        by_cases h : k0 = k' <;> simp [ainsert, alookup, h]
      · by_cases h : k0 = k'
        · subst h
          have hk : ¬ k = k0 := fun he => h0 he.symm
          simp [ainsert, alookup, h0, hk, if_neg]
        · simp [ainsert, alookup, h0, h, ih]

theorem cache_latent_c3 (cfg : Config) (o : Oracles) (s : DState) (p : SPath)
    (res : Nat × Nat) : cacheOnly3 s (exStateD (cache_latent cfg o s p res)) := by
  unfold cache_latent
  split
  · split
    · exact ⟨_, s.caption_cache, s.sdxl_cache, rfl⟩
    · exact cacheOnly3_refl s
  · exact cacheOnly3_refl s

theorem cache_caption_c3 (cfg : Config) (o : Oracles) (s : DState) (p : SPath)
    (c : Caption) : cacheOnly3 s (ccState (cache_caption cfg o s p c)) := by
  unfold cache_caption
  by_cases hg : 0 < cfg.numTokenizers ∧
      ((alookup s.caption_cache p).isNone = true ∨ cfg.debug_dataset = true)
  · rw [if_pos hg]
    cases htok : o.tokenize (capTrans cfg o c) cfg.not_pad_tokens with
    | error e => exact cacheOnly3_refl s
    | ok ids =>
        dsimp only
        by_cases hsh : cfg.shuffle_tags = true
        · rw [if_pos hsh]; exact cacheOnly3_refl s
        · rw [if_neg hsh]; exact ⟨s.latents_cache, _, s.sdxl_cache, rfl⟩
  · rw [if_neg hg]; exact cacheOnly3_refl s

theorem cob_step1_c3 (cfg : Config) (o : Oracles) (st : AList SPath Latent)
    (reso : Nat × Nat) (s : DState) (p : SPath) :
    cacheOnly3 s (exStateD (cob_step1 cfg o st reso s p)) := by
  unfold cob_step1
  split
  · split
    · exact cache_latent_c3 cfg o s p reso
    · exact cacheOnly3_refl s
  · exact cacheOnly3_refl s

theorem cob_step2_c3 (cfg : Config) (o : Oracles) (st : AList SPath Latent)
    (reso : Nat × Nat) (s : DState) (p : SPath) (c : Caption) :
    cacheOnly3 s (exStateD (cob_step2 cfg o st reso s p c)) := by
  unfold cob_step2
  split
  · split
    · exact ⟨s.latents_cache, s.caption_cache, _, rfl⟩
    · exact cacheOnly3_refl s
  · split
    · exact ⟨_, s.caption_cache, s.sdxl_cache, rfl⟩
    · exact cacheOnly3_refl s

theorem cob_step3_c3 (cfg : Config) (o : Oracles) (s : DState) (p : SPath) (c : Caption) :
    cacheOnly3 s (exStateD (cob_step3 cfg o s p c)) := by
  unfold cob_step3
  split
  · split
    · rename_i s' ids heq
      have := cache_caption_c3 cfg o s p c
      rw [heq] at this
      exact this
    · rename_i s' heq
      have := cache_caption_c3 cfg o s p c
      rw [heq] at this
      exact this
  · exact cacheOnly3_refl s

theorem cache_one_body_err (cfg : Config) (o : Oracles) (st : AList SPath Latent)
    (reso : Nat × Nat) (s : DState) (e : Entry) :
    ∀ s', cache_one_body cfg o st reso s e = .error s' → cacheOnly3 s s' := by
  intro s' h
  unfold cache_one_body at h
  split at h
  · rename_i sE heq1
    cases h
    have h1 := cob_step1_c3 cfg o st reso s e.1
    rwa [exStateD_error heq1] at h1
  · rename_i s1 heq1
    have h1 := cob_step1_c3 cfg o st reso s e.1
    rw [exStateD_ok heq1] at h1
    split at h
    · rename_i sE heq2
      cases h
      have h2 := cob_step2_c3 cfg o st reso s1 e.1 e.2.1
      rw [exStateD_error heq2] at h2
      exact cacheOnly3_trans h1 h2
    · rename_i s2 heq2
      have h2 := cob_step2_c3 cfg o st reso s1 e.1 e.2.1
      rw [exStateD_ok heq2] at h2
      split at h
      · rename_i sE heq3
        cases h
        have h3 := cob_step3_c3 cfg o s2 e.1 e.2.1
        rw [exStateD_error heq3] at h3
        exact cacheOnly3_trans (cacheOnly3_trans h1 h2) h3
      · cases h

theorem cache_one_body_ok (cfg : Config) (o : Oracles) (st : AList SPath Latent)
    (reso : Nat × Nat) (s : DState) (e : Entry) :
    ∀ s', cache_one_body cfg o st reso s e = .ok s' →
      ∃ t, cacheOnly3 s t ∧
        s' = {t with sample_indices := t.sample_indices ++ [e.1],
                     sample_cache := t.sample_cache ++ [(e.1, e.2.1, e.2.2)]} := by
  intro s' h
  unfold cache_one_body at h
  split at h
  · cases h
  · rename_i s1 heq1
    have h1 := cob_step1_c3 cfg o st reso s e.1
    rw [exStateD_ok heq1] at h1
    split at h
    · cases h
    · rename_i s2 heq2
      have h2 := cob_step2_c3 cfg o st reso s1 e.1 e.2.1
      rw [exStateD_ok heq2] at h2
      split at h
      · cases h
      · rename_i s3 heq3
        have h3 := cob_step3_c3 cfg o s2 e.1 e.2.1
        rw [exStateD_ok heq3] at h3
        cases h
        exact ⟨s3, cacheOnly3_trans (cacheOnly3_trans h1 h2) h3, rfl⟩

theorem cache_one_handler_ok (s : DState) (e : Entry) :
    ∀ s', cache_one_handler s e = .ok s' → cacheOnly3 s s' := by
  intro s' h
  unfold cache_one_handler at h
  split at h
  · cases h
  · split at h
    · cases h
    · cases h
      exact ⟨_, _, s.sdxl_cache, rfl⟩

theorem cache_one_ok (cfg : Config) (o : Oracles) (st : AList SPath Latent)
    (reso : Nat × Nat) (s : DState) (e : Entry) :
    ∀ s', cache_one cfg o st reso s e = .ok s' →
      (∃ t, cacheOnly3 s t ∧
        s' = {t with sample_indices := t.sample_indices ++ [e.1],
                     sample_cache := t.sample_cache ++ [(e.1, e.2.1, e.2.2)]}) ∨
      cacheOnly3 s s' := by
  intro s' h
  unfold cache_one at h
  split at h
  · rename_i t heq
    cases h
    exact .inl (cache_one_body_ok cfg o st reso s e _ heq)
  · rename_i sE heq
    exact .inr (cacheOnly3_trans (cache_one_body_err cfg o st reso s e sE heq)
      (cache_one_handler_ok sE e s' h))

/-- The fields of the dataset state that a successful caching step leaves
unchanged, together with transport of the parallel-lists invariant. -/
def presP (s s' : DState) : Prop :=
  s'.class_dict = s.class_dict ∧ s'.train_dict = s.train_dict ∧
  s'.cache_latents = s.cache_latents ∧ s'.sample_dict = s.sample_dict ∧
  s'.image_index = s.image_index ∧
  (s.sample_indices = s.sample_cache.map (fun x => x.1) →
    s'.sample_indices = s'.sample_cache.map (fun x => x.1))

theorem presP_refl (s : DState) : presP s s :=
  ⟨rfl, rfl, rfl, rfl, rfl, fun hp => hp⟩

theorem presP_trans {s t u : DState} (h1 : presP s t) (h2 : presP t u) : presP s u := by
  obtain ⟨a1, b1, c1, d1, e1, f1⟩ := h1
  obtain ⟨a2, b2, c2, d2, e2, f2⟩ := h2
  exact ⟨a2.trans a1, b2.trans b1, c2.trans c1, d2.trans d1, e2.trans e1,
    fun hp => f2 (f1 hp)⟩

theorem cache_one_ok_pres {cfg : Config} {o : Oracles} {st : AList SPath Latent}
    {reso : Nat × Nat} {s : DState} {e : Entry} {s' : DState}
    (h : cache_one cfg o st reso s e = .ok s') : presP s s' := by
  rcases cache_one_ok cfg o st reso s e s' h with ⟨t, ⟨a, b, c, rfl⟩, rfl⟩ | ⟨a, b, c, rfl⟩
  · refine ⟨rfl, rfl, rfl, rfl, rfl, ?_⟩
    intro hp
    simp [hp]
  · exact presP_refl _

theorem cache_images_go_pres {cfg : Config} {o : Oracles} {st : AList SPath Latent}
    {reso : Nat × Nat} :
    ∀ (es : List Entry) (s s' : DState),
      cache_images_go cfg o st reso s es = .ok s' → presP s s' := by
  intro es
  induction es with
  | nil =>
      intro s s' h
      cases h
      exact presP_refl s
  | cons e rest ih =>
      intro s s' h
      unfold cache_images_go at h
      split at h
      · rename_i s1 heq
        exact presP_trans (cache_one_ok_pres heq) (ih s1 s' h)
      · cases h

theorem cache_images_pres {cfg : Config} {o : Oracles} {st : AList SPath Latent}
    {reso : Nat × Nat} {s s' : DState} {es : List Entry}
    (h : cache_images cfg o st reso s es = .ok s') : presP s s' := by
  unfold cache_images at h
  split at h
  · rename_i s1 heq
    cases h
    exact presP_trans (cache_images_go_pres es s s1 heq) ⟨rfl, rfl, rfl, rfl, rfl, fun hp => hp⟩
  · cases h

theorem bucket_pass_go_pres {cfg : Config} {o : Oracles} {st : AList SPath Latent} :
    ∀ (bs : AList BKey (List Entry)) (s : DState) (tot : Nat) (blen : AList BKey Nat)
      (s1 : DState) (tot' : Nat) (blen' : AList BKey Nat),
      bucket_pass_go cfg o st s bs tot blen = .ok (s1, tot', blen') → presP s s1 := by
  intro bs
  induction bs with
  | nil =>
      intro s tot blen s1 tot' blen' h
      cases h
      exact presP_refl s
  | cons kb rest ih =>
      intro s tot blen s1 tot' blen' h
      obtain ⟨k, imgs⟩ := kb
      unfold bucket_pass_go at h
      split at h
      · exact ih _ _ _ _ _ _ h
      · split at h
        · cases h
        · rename_i sA heqA
          have pmid : presP s {s with resolutions := s.resolutions ++ [k]} :=
            ⟨rfl, rfl, rfl, rfl, rfl, fun hp => hp⟩
          have pA : presP s sA := presP_trans pmid (cache_images_pres heqA)
          split at h
          · rename_i cimgs heqC
            split at h
            · cases h
            · rename_i sB heqB
              exact presP_trans pA
                (presP_trans (cache_images_pres heqB) (ih _ _ _ _ _ _ h))
          · exact presP_trans pA (ih _ _ _ _ _ _ h)

theorem bucket_pass_go_count {cfg : Config} {o : Oracles} {st : AList SPath Latent} :
    ∀ (bs : AList BKey (List Entry)) (s : DState) (tot : Nat) (blen : AList BKey Nat)
      (s1 : DState) (tot' : Nat) (blen' : AList BKey Nat),
      bucket_pass_go cfg o st s bs tot blen = .ok (s1, tot', blen') →
      ∃ nb, blen' = blen ++ nb ∧ tot' = tot + (nb.map Prod.snd).sum ∧
        ∀ ke ∈ nb, ∃ imgs, (ke.1, imgs) ∈ bs ∧ imgs ≠ [] ∧
          ke.2 = (if ((alookup s.class_dict ke.1).getD []).length = 0
                  then imgs.length else imgs.length * 2) := by
  intro bs
  induction bs with
  | nil =>
      intro s tot blen s1 tot' blen' h
      cases h
      exact ⟨[], (List.append_nil _).symm, by simp, by simp⟩
  | cons kb rest ih =>
      intro s tot blen s1 tot' blen' h
      obtain ⟨k, imgs⟩ := kb
      unfold bucket_pass_go at h
      split at h
      · obtain ⟨nb, h1, h2, h3⟩ := ih _ _ _ _ _ _ h
        refine ⟨nb, h1, h2, ?_⟩
        intro ke hke
        obtain ⟨im, hm, hne, hf⟩ := h3 ke hke
        exact ⟨im, List.mem_cons_of_mem _ hm, hne, hf⟩
      · rename_i hemp
        split at h
        · cases h
        · rename_i sA heqA
          have pmid : presP s {s with resolutions := s.resolutions ++ [k]} :=
            ⟨rfl, rfl, rfl, rfl, rfl, fun hp => hp⟩
          have pA : presP s sA := presP_trans pmid (cache_images_pres heqA)
          split at h
          · rename_i cimgs heqC
            split at h
            · cases h
            · rename_i sB heqB
              have pB : presP s sB := presP_trans pA (cache_images_pres heqB)
              have hC0 : alookup s.class_dict k = some cimgs := by
                rw [pA.1] at heqC
                exact heqC
              obtain ⟨nb, h1, h2, h3⟩ := ih _ _ _ _ _ _ h
              refine ⟨(k, if cimgs.length = 0 then imgs.length else imgs.length * 2) :: nb,
                ?_, ?_, ?_⟩
              · rw [h1, List.append_assoc]
                rfl
              · rw [h2]
                simp [Nat.add_assoc]
              · intro ke hke
                rcases List.mem_cons.mp hke with rfl | hke'
                · exact ⟨imgs, List.mem_cons_self _ _, hemp, by rw [hC0]; rfl⟩
                · obtain ⟨im, hm, hne, hf⟩ := h3 ke hke'
                  rw [pB.1] at hf
                  exact ⟨im, List.mem_cons_of_mem _ hm, hne, hf⟩
          · rename_i heqC
            have hC0 : alookup s.class_dict k = none := by
              rw [pA.1] at heqC
              exact heqC
            obtain ⟨nb, h1, h2, h3⟩ := ih _ _ _ _ _ _ h
            refine ⟨(k, imgs.length) :: nb, ?_, ?_, ?_⟩
            · rw [h1, List.append_assoc]
              rfl
            · rw [h2]
              simp [Nat.add_assoc]
            · intro ke hke
              rcases List.mem_cons.mp hke with rfl | hke'
              · exact ⟨imgs, List.mem_cons_self _ _, hemp, by rw [hC0]; rfl⟩
              · obtain ⟨im, hm, hne, hf⟩ := h3 ke hke'
                rw [pA.1] at hf
                exact ⟨im, List.mem_cons_of_mem _ hm, hne, hf⟩

theorem make_buckets_ok_inv {cfg : Config} {o : Oracles} {s : DState}
    {fsIn : Option (AList SPath Latent)} {w : Bool} {r : MBResult}
    (h : make_buckets cfg o s fsIn w = .ok r) :
    ∃ s1 tot blen,
      bucket_pass_go cfg o (fsIn.getD []) {s with cache_latents := cfg.hasVae}
        s.train_dict 0 [] = .ok (s1, tot, blen) ∧
      r = ⟨{s1 with db_length := tot},
           save_step s1.latents_cache (fsIn.getD []) fsIn w, blen, tot⟩ := by
  unfold make_buckets at h
  split at h
  · cases h
  · rename_i s1 tot blen heq
    cases h
    exact ⟨s1, tot, blen, heq, rfl⟩

theorem list_get?_map_fst :
    ∀ (l : List Entry) (i : Nat),
      (l.map (fun e => e.1)).get? i = (l.get? i).map (fun e => e.1) := by
  intro l
  induction l with
  | nil => intro i; cases i <;> rfl
  | cons e rest ih =>
      intro i
      cases i with
      | zero => rfl
      | succ n => exact ih n

/-- C3: for every materialization run, each bucket's example count equals
`instance_count` when the bucket has zero class samples and `instance_count*2`
otherwise, and `__len__` returns exactly the sum of the per-bucket example
counts computed during that materialization. -/
theorem dbd_claim_C3 (cfg : Config) (o : Oracles) (s : DState)
    (fsIn : Option (AList SPath Latent)) (w : Bool) (r : MBResult)
    (h : make_buckets cfg o s fsIn w = .ok r) :
    (∀ ke ∈ r.bucket_len, ∃ imgs, (ke.1, imgs) ∈ s.train_dict ∧ imgs ≠ [] ∧
       ke.2 = (if ((alookup s.class_dict ke.1).getD []).length = 0
               then imgs.length else imgs.length * 2)) ∧
    r.total_len = (r.bucket_len.map Prod.snd).sum ∧
    dataset_len r.state = r.total_len := by
  obtain ⟨s1, tot, blen, heq, rfl⟩ := make_buckets_ok_inv h
  obtain ⟨nb, h1, h2, h3⟩ := bucket_pass_go_count _ _ _ _ _ _ _ heq
  rw [List.nil_append] at h1
  subst h1
  refine ⟨?_, ?_, rfl⟩
  · intro ke hke
    exact h3 ke hke
  · rw [h2, Nat.zero_add]

/-- C9: after every materialization pass the flattened sample list and the
path index list are parallel — `sample_indices` is exactly the path column of
`sample_cache`, pointwise at every index. -/
theorem dbd_claim_C9 (cfg : Config) (o : Oracles) (s : DState)
    (fsIn : Option (AList SPath Latent)) (w : Bool) (r : MBResult)
    (h0 : s.sample_indices = s.sample_cache.map (fun e => e.1))
    (h : make_buckets cfg o s fsIn w = .ok r) :
    r.state.sample_indices = r.state.sample_cache.map (fun e => e.1) ∧
    ∀ i, r.state.sample_indices.get? i =
      (r.state.sample_cache.get? i).map (fun e => e.1) := by
  obtain ⟨s1, tot, blen, heq, rfl⟩ := make_buckets_ok_inv h
  have p := bucket_pass_go_pres _ _ _ _ _ _ _ heq
  have hpar : s1.sample_indices = s1.sample_cache.map (fun e => e.1) :=
    p.2.2.2.2.2 h0
  refine ⟨hpar, ?_⟩
  intro i
  show s1.sample_indices.get? i = (s1.sample_cache.get? i).map (fun e => e.1)
  rw [hpar]
  exact list_get?_map_fst _ _

/-- Concrete configuration used by the witness runs: one-encoder pipeline with
no tokenizer list, no VAE, all randomization-related flags off. -/
def cfgW : Config := ⟨0, false, false, false, false, false⟩

/-- All-succeeding concrete oracles for witness runs. -/
def oW : Oracles :=
  ⟨fun _ _ => .ok 7, fun _ _ => .ok (1, 2), fun _ _ => .ok 9,
   fun c => c, fun c => c, fun _ _ => .ok 3, fun n => n⟩

/-- Concrete initial state: one instance bucket with a single sample. -/
def sW : DState := {dstate0 with train_dict := [((64, 64, 0), [("i1", "cap", false)])]}

/-- Concrete on-disk cache containing the sample's latent. -/
def fsW : Option (AList SPath Latent) := some [("i1", 5)]

/-- Result extractor for `make_buckets` outcomes. -/
def mbResOf : Except DState MBResult → MBResult
  | .ok r => r
  | .error _ => ⟨dstate0, none, [], 0⟩

/-- Result extractor for `bucket_pass_go` outcomes. -/
def bpResOf : Except DState (DState × Nat × AList BKey Nat) → DState × Nat × AList BKey Nat
  | .ok r => r
  | .error _ => (dstate0, 0, [])

/-- Witness for C3 at a concrete successful materialization run. -/
theorem dbd_claim_C3_witness :
    make_buckets cfgW oW sW fsW true = .ok (mbResOf (make_buckets cfgW oW sW fsW true)) ∧
    (mbResOf (make_buckets cfgW oW sW fsW true)).total_len =
      ((mbResOf (make_buckets cfgW oW sW fsW true)).bucket_len.map Prod.snd).sum ∧
    dataset_len (mbResOf (make_buckets cfgW oW sW fsW true)).state =
      (mbResOf (make_buckets cfgW oW sW fsW true)).total_len := by
  have h : make_buckets cfgW oW sW fsW true =
      .ok (mbResOf (make_buckets cfgW oW sW fsW true)) := rfl
  exact ⟨h, (dbd_claim_C3 cfgW oW sW fsW true _ h).2⟩

/-- Witness for C9 at a concrete successful materialization run. -/
theorem dbd_claim_C9_witness :
    (mbResOf (make_buckets cfgW oW sW fsW true)).state.sample_indices =
      (mbResOf (make_buckets cfgW oW sW fsW true)).state.sample_cache.map (fun e => e.1) := by
  have h : make_buckets cfgW oW sW fsW true =
      .ok (mbResOf (make_buckets cfgW oW sW fsW true)) := rfl
  exact (dbd_claim_C9 cfgW oW sW fsW true _ rfl h).1

/-- C6: at the end of a materialization pass the on-disk latent file is
replaced (delete, then fresh snapshot of the live cache) exactly when the live
key set differs from the staging key set; on an unchanged key set nothing is
written or deleted; a failing save leaves the file in its partial state but is
swallowed, and `make_buckets` always returns normally after the bucket sweep,
with the file as `save_step` leaves it. -/
theorem dbd_claim_C6 :
    (∀ (live staging : AList SPath Latent) (fs : Option (AList SPath Latent)) (w : Bool),
       sameKeySet live staging = true → save_step live staging fs w = fs) ∧
    (∀ (live staging : AList SPath Latent) (fs : Option (AList SPath Latent)),
       sameKeySet live staging = false → save_step live staging fs true = some live) ∧
    (∀ (live staging : AList SPath Latent) (fs : Option (AList SPath Latent)),
       sameKeySet live staging = false →
         save_body live staging fs false = .error none ∧
         save_step live staging fs false = none) ∧
    (∀ (cfg : Config) (o : Oracles) (s : DState) (fsIn : Option (AList SPath Latent))
       (w : Bool) (s1 : DState) (tot : Nat) (blen : AList BKey Nat),
       bucket_pass_go cfg o (fsIn.getD []) {s with cache_latents := cfg.hasVae}
           s.train_dict 0 [] = .ok (s1, tot, blen) →
       make_buckets cfg o s fsIn w =
         .ok ⟨{s1 with db_length := tot},
              save_step s1.latents_cache (fsIn.getD []) fsIn w, blen, tot⟩) := by
  refine ⟨?_, ?_, ?_, ?_⟩
  · intro live staging fs w hs
    simp [save_step, save_body, hs]
  · intro live staging fs hs
    simp [save_step, save_body, hs]
  · intro live staging fs hs
    simp [save_step, save_body, hs]
  · intro cfg o s fsIn w s1 tot blen h
    unfold make_buckets
    rw [h]

/-- Witness for C6 at concrete caches and a concrete materialization run. -/
theorem dbd_claim_C6_witness :
    save_step [("a", 1)] [("a", 1)] (some [("a", 1)]) false = some [("a", 1)] ∧
    (save_body [("b", 2)] [] none false = .error none ∧
     save_step [("b", 2)] [] none false = none) ∧
    make_buckets cfgW oW sW fsW true =
      .ok ⟨{(bpResOf (bucket_pass_go cfgW oW (fsW.getD [])
              {sW with cache_latents := cfgW.hasVae} sW.train_dict 0 [])).1 with
              db_length := (bpResOf (bucket_pass_go cfgW oW (fsW.getD [])
                {sW with cache_latents := cfgW.hasVae} sW.train_dict 0 [])).2.1},
           save_step (bpResOf (bucket_pass_go cfgW oW (fsW.getD [])
              {sW with cache_latents := cfgW.hasVae} sW.train_dict 0 [])).1.latents_cache
              (fsW.getD []) fsW true,
           (bpResOf (bucket_pass_go cfgW oW (fsW.getD [])
              {sW with cache_latents := cfgW.hasVae} sW.train_dict 0 [])).2.2,
           (bpResOf (bucket_pass_go cfgW oW (fsW.getD [])
              {sW with cache_latents := cfgW.hasVae} sW.train_dict 0 [])).2.1⟩ :=
  ⟨dbd_claim_C6.1 _ _ _ _ (by decide),
   dbd_claim_C6.2.2.1 _ _ _ (by decide),
   dbd_claim_C6.2.2.2 cfgW oW sW fsW true _ _ _ rfl⟩

theorem list_get?_lt :
    ∀ (l : List Entry) (n : Nat), n < l.length → ∃ e, l.get? n = some e ∧ e ∈ l := by
  intro l
  induction l with
  | nil => intro n hn; cases hn
  | cons e rest ih =>
      intro n hn
      cases n with
      | zero => exact ⟨e, rfl, List.mem_cons_self _ _⟩
      | succ m =>
          obtain ⟨f, hf, hm⟩ := ih m (Nat.lt_of_succ_lt_succ hn)
          exact ⟨f, hf, List.mem_cons_of_mem _ hm⟩

theorem ge_iter_step_ok (t : DState) (pr : Nat × Nat)
    (cont : DState → Except Unit (DState × List (Nat × Nat))) :
    ge_iter_step (.ok (t, pr)) cont =
      match cont t with
      | .ok (s'', ps) => .ok (s'', pr :: ps)
      | .error e => .error e := rfl

theorem get_example_some (s : DState) (res : BKey) (bucket : List Entry)
    (e : Entry) (ii : Nat)
    (hb : alookup s.sample_dict res = some bucket)
    (hlt : ¬ bucket.length ≤ s.image_index)
    (hget : bucket.get? s.image_index = some e)
    (hii : idxOf s.sample_indices e.1 = some ii) :
    get_example s res =
      (if bucket.length ≤ s.image_index + 1 then .ok ({s with image_index := 0}, ii, 1)
       else .ok ({s with image_index := s.image_index + 1}, ii, 0)) := by
  unfold get_example
  rw [hb]
  dsimp only
  rw [if_neg hlt, hget]
  dsimp only
  rw [hii]

theorem get_example_iter_run (res : BKey) (bucket : List Entry) :
    ∀ (m j : Nat) (s : DState),
      alookup s.sample_dict res = some bucket →
      (∀ e ∈ bucket, (idxOf s.sample_indices e.1).isSome = true) →
      s.image_index = j →
      j + m = bucket.length →
      1 ≤ m →
      ∃ ps, get_example_iter s res m = .ok ({s with image_index := 0}, ps) ∧
        ps.map (fun pr => pr.2) = List.replicate (m - 1) 0 ++ [1] := by
  intro m
  induction m with
  | zero => intro j s _ _ _ _ hm; cases hm
  | succ n ih =>
      intro j s hb hidx hj hlen _
      have hjlt : j < bucket.length := by omega
      obtain ⟨e, hget, hmem⟩ := list_get?_lt bucket j hjlt
      obtain ⟨ii, hii⟩ := Option.isSome_iff_exists.mp (hidx e hmem)
      have hgeq := get_example_some s res bucket e ii hb (by omega) (by rw [hj]; exact hget) hii
      cases n with
      | zero =>
          have hge : get_example s res = .ok ({s with image_index := 0}, ii, 1) := by
            rw [hgeq, if_pos (by omega : bucket.length ≤ s.image_index + 1)]
          refine ⟨[(ii, 1)], ?_, rfl⟩
          show ge_iter_step (get_example s res) (fun s' => get_example_iter s' res 0) = _
          rw [hge, ge_iter_step_ok]
          rfl
      | succ n' =>
          have hge : get_example s res =
              .ok ({s with image_index := j + 1}, ii, 0) := by
            rw [hgeq, if_neg (by omega : ¬ bucket.length ≤ s.image_index + 1), hj]
          obtain ⟨ps, hiter, hmap⟩ := ih (j + 1) {s with image_index := j + 1} hb hidx rfl
            (by omega) (by omega)
          refine ⟨(ii, 0) :: ps, ?_, ?_⟩
          · show ge_iter_step (get_example s res)
              (fun s' => get_example_iter s' res (n' + 1)) = _
            rw [hge, ge_iter_step_ok]
            show (match get_example_iter {s with image_index := j + 1} res (n' + 1) with
                  | Except.ok (s'', ps) => Except.ok (s'', (ii, 0) :: ps)
                  | Except.error e => Except.error e) = _
            rw [hiter]
          · rw [List.map_cons, hmap]
            rfl

/-- C5: for a bucket whose pairing list has `N ≥ 1` entries, starting from
cursor position 0, `N` consecutive `get_example` calls report `repeats = 0`
(not wrapped) on the first `N-1` calls and `repeats = 1` (wrapped) on the
`N`-th, leaving the cursor reset to 0. -/
theorem dbd_claim_C5 (s : DState) (res : BKey) (bucket : List Entry)
    (hb : alookup s.sample_dict res = some bucket)
    (hidx : ∀ e ∈ bucket, (idxOf s.sample_indices e.1).isSome = true)
    (h0 : s.image_index = 0) (hN : 1 ≤ bucket.length) :
    ∃ ps, get_example_iter s res bucket.length = .ok ({s with image_index := 0}, ps) ∧
      ps.map (fun pr => pr.2) = List.replicate (bucket.length - 1) 0 ++ [1] :=
  get_example_iter_run res bucket bucket.length 0 s hb hidx h0 (by omega) hN

/-- Concrete state with one two-entry pairing list and matching index list. -/
def s5W : DState :=
  {dstate0 with
    sample_dict := [((64, 64, 0), [("p1", "c1", false), ("p2", "c2", false)])],
    sample_indices := ["p1", "p2"],
    sample_cache := [("p1", "c1", false), ("p2", "c2", false)]}

/-- Witness for C5: two calls on a two-entry bucket report `0` then `1`. -/
theorem dbd_claim_C5_witness :
    ∃ ps, get_example_iter s5W (64, 64, 0) 2 = .ok ({s5W with image_index := 0}, ps) ∧
      ps.map (fun pr => pr.2) = List.replicate 1 0 ++ [1] :=
  dbd_claim_C5 s5W (64, 64, 0) [("p1", "c1", false), ("p2", "c2", false)]
    (by decide) (by decide) rfl (by decide)

/-- C10 (amended): `get_example` reads the pairing-list entry at the clamped
cursor position without removing it, resolves it to a flattened index via
`idxOf` on `sample_indices`, and mutates nothing but the cursor. -/
theorem dbd_claim_C10 (s : DState) (res : BKey) (s' : DState) (ii rep : Nat)
    (h : get_example s res = .ok (s', ii, rep)) :
    s'.sample_dict = s.sample_dict ∧ s'.sample_cache = s.sample_cache ∧
    s'.sample_indices = s.sample_indices ∧ s'.latents_cache = s.latents_cache ∧
    s'.caption_cache = s.caption_cache ∧ s'.sdxl_cache = s.sdxl_cache ∧
    s'.train_dict = s.train_dict ∧ s'.class_dict = s.class_dict ∧
    s'.resolutions = s.resolutions ∧ s'.db_length = s.db_length ∧
    s'.cache_latents = s.cache_latents ∧
    ∃ bucket e, alookup s.sample_dict res = some bucket ∧
      bucket.get? (if bucket.length ≤ s.image_index then 0 else s.image_index) = some e ∧
      idxOf s.sample_indices e.1 = some ii := by
  unfold get_example at h
  split at h
  · cases h
  · rename_i bucket heqB
    split at h
    · cases h
    · rename_i e heqE
      split at h
      · cases h
      · rename_i ii' heqI
        split at h <;> (try split at h) <;> cases h <;>
          exact ⟨rfl, rfl, rfl, rfl, rfl, rfl, rfl, rfl, rfl, rfl, rfl,
            bucket, e, heqB, heqE, heqI⟩

/-- Counterexample to C10 as stated: after a `get_example` call on a concrete
state, the bucket's pairing list still contains both entries — the entry at
the cursor was not popped. -/
theorem dbd_claim_C10_cex :
    isOkGE (get_example s5W (64, 64, 0)) = true ∧
    (geState (get_example s5W (64, 64, 0))).sample_dict = s5W.sample_dict ∧
    alookup (geState (get_example s5W (64, 64, 0))).sample_dict (64, 64, 0) =
      some [("p1", "c1", false), ("p2", "c2", false)] := by
  decide

/-- Witness for C10 (amended) at a concrete call. -/
theorem dbd_claim_C10_witness :
    ∃ s' ii rep, get_example s5W (64, 64, 0) = .ok (s', ii, rep) ∧
      s'.sample_dict = s5W.sample_dict := by
  have h : get_example s5W (64, 64, 0) = .ok ({s5W with image_index := 1}, 0, 0) := rfl
  exact ⟨_, _, _, h, (dbd_claim_C10 s5W (64, 64, 0) _ 0 0 h).1⟩

/-- Strict alternation instance/reference: the entry at index `i` is a
reference entry exactly when `i` is odd. -/
def altPairs (l : List Entry) : Prop :=
  ∀ i (hi : i < l.length), (l.get ⟨i, hi⟩).2.2 = decide (i % 2 = 1)

theorem altPairs_nil : altPairs [] := fun i hi => absurd hi (Nat.not_lt_zero i)

theorem altPairs_cons2 (e sel : Entry) (l : List Entry) (he : e.2.2 = false)
    (hs : sel.2.2 = true) (h : altPairs l) : altPairs (e :: sel :: l) := by
  intro i hi
  cases i with
  | zero => exact he
  | succ i' =>
      cases i' with
      | zero => exact hs
      | succ n =>
          have hn : n < l.length := by
            simp only [List.length_cons] at hi
            omega
          show (l.get ⟨n, hn⟩).2.2 = decide ((n + 2) % 2 = 1)
          rw [Nat.add_mod_right]
          exact h n hn

theorem pick_mem (l : List Entry) (n : Nat) (h : l ≠ []) : pick l n ∈ l := by
  cases l with
  | nil => exact absurd rfl h
  | cons x xs => exact List.get_mem _ _ _

/-- The pairing-list shape property of one bucket: instance-only when the key
has no reference bucket; even length, strict alternation and reference draws
from the bucket's pool otherwise. -/
def QAlt (cd : AList BKey (List Entry)) (k : BKey) (l : List Entry) : Prop :=
  (alookup cd k = none → ∀ e ∈ l, e.2.2 = false) ∧
  (∀ ce, alookup cd k = some ce →
     (l.length % 2 = 0 ∧ altPairs l) ∧ ∀ e ∈ l, e.2.2 = true → e ∈ ce)

theorem pair_entries_alt (cd : AList BKey (List Entry)) (rg : Rng) (k : BKey) :
    ∀ (es : List Entry) (c : Nat),
      (∀ e ∈ es, e.2.2 = false) →
      (∀ ce, alookup cd k = some ce → (∀ e ∈ ce, e.2.2 = true) ∧ ce ≠ []) →
      QAlt cd k (pair_entries cd rg k es c).1 := by
  intro es
  induction es with
  | nil =>
      intro c _ _
      constructor
      · intro _ e he
        simp [pair_entries] at he
      · intro ce _
        refine ⟨⟨rfl, altPairs_nil⟩, ?_⟩
        intro e he
        simp [pair_entries] at he
  | cons e rest ih =>
      intro c hf hce
      have hrec := ih (c + 1) (fun x hx => hf x (List.mem_cons_of_mem _ hx)) hce
      have hrec0 := ih c (fun x hx => hf x (List.mem_cons_of_mem _ hx)) hce
      cases hcd0 : alookup cd k with
      | none =>
          constructor
          · intro _ x hx
            simp only [pair_entries, hcd0] at hx
            rcases List.mem_cons.mp hx with rfl | hx'
            · exact hf x (List.mem_cons_self _ _)
            · exact hrec0.1 hcd0 x hx'
          · intro ce hc
            rw [hcd0] at hc
            cases hc
      | some ce =>
          constructor
          · intro hnone
            rw [hcd0] at hnone
            cases hnone
          · intro ce' hc
            rw [hcd0] at hc
            injection hc with hceq
            subst hceq
            obtain ⟨hall, hne⟩ := hce ce hcd0
            obtain ⟨⟨hlen, halt⟩, hmem⟩ := hrec.2 ce hcd0
            simp only [pair_entries, hcd0]
            refine ⟨⟨?_, ?_⟩, ?_⟩
            · simp only [List.length_cons]
              omega
            · exact altPairs_cons2 e _ _ (hf e (List.mem_cons_self _ _))
                (hall _ (pick_mem ce _ hne)) halt
            · intro x hx hxt
              rcases List.mem_cons.mp hx with rfl | hx'
              · rw [hf x (List.mem_cons_self _ _)] at hxt
                cases hxt
              · rcases List.mem_cons.mp hx' with rfl | hx''
                · exact pick_mem ce _ hne
                · exact hmem x hx'' hxt

theorem shufEntries_false (debug : Bool) (train : AList BKey (List Entry)) (rg : Rng)
    (k : BKey)
    (hpe : ∀ k' es, List.Perm (rg.permEntries k' es) es)
    (htr : ∀ kes ∈ train, ∀ e ∈ kes.2, e.2.2 = false) :
    ∀ e ∈ shufEntries debug train rg k, e.2.2 = false := by
  intro e he
  have hbase : ∀ x ∈ (alookup train k).getD [], x.2.2 = false := by
    intro x hx
    cases halo : alookup train k with
    | none => rw [halo] at hx; cases hx
    | some ts =>
        rw [halo] at hx
        exact htr (k, ts) (alookup_mem _ _ _ halo) x hx
  unfold shufEntries at he
  by_cases hd : debug = true
  · rw [if_pos hd] at he
    exact hbase e he
  · rw [if_neg hd] at he
    exact hbase e ((hpe k _).mem_iff.mp he)

theorem shuffle_go_inv (debug : Bool) (train cd : AList BKey (List Entry)) (rg : Rng)
    (hpe : ∀ k' es, List.Perm (rg.permEntries k' es) es)
    (htr : ∀ kes ∈ train, ∀ e ∈ kes.2, e.2.2 = false)
    (hcd2 : ∀ k' ce, alookup cd k' = some ce → (∀ e ∈ ce, e.2.2 = true) ∧ ce ≠ []) :
    ∀ (ks : List BKey) (sd : AList BKey (List Entry)) (bi : List SPath)
      (bs : List Entry) (c : Nat),
      (∀ k l, alookup sd k = some l → QAlt cd k l) →
      ∀ k l, alookup (shuffle_go debug train cd rg ks sd bi bs c).sample_dict k = some l →
        QAlt cd k l := by
  intro ks
  induction ks with
  | nil =>
      intro sd bi bs c hsd k l hl
      exact hsd k l hl
  | cons k0 ks' ih =>
      intro sd bi bs c hsd k l hl
      refine ih _ _ _ _ ?_ k l hl
      intro k1 l1 hl1
      rw [alookup_ainsert] at hl1
      by_cases hk : k0 = k1
      · rw [if_pos hk] at hl1
        injection hl1 with hleq
        subst hleq
        subst hk
        exact pair_entries_alt cd rg k0 (shufEntries debug train rg k0) c
          (shufEntries_false debug train rg k0 hpe htr) (hcd2 k0)
      · rw [if_neg hk] at hl1
        exact hsd k1 l1 hl1

/-- C4: after every `shuffle()`, a bucket key with a same-key reference bucket
gets a pairing list of even length that strictly alternates
`is_reference = false, true, false, true, ...` starting with an instance
entry, with every reference entry drawn from that bucket's reference pool;
a key with no same-key reference bucket gets an all-instance pairing list. -/
theorem dbd_claim_C4 (debug : Bool) (train cd : AList BKey (List Entry)) (rg : Rng)
    (k : BKey) (l : List Entry)
    (hpe : ∀ k' es, List.Perm (rg.permEntries k' es) es)
    (htr : ∀ kes ∈ train, ∀ e ∈ kes.2, e.2.2 = false)
    (hcd : ∀ kes ∈ cd, ∀ e ∈ kes.2, e.2.2 = true)
    (hcdne : ∀ kes ∈ cd, kes.2 ≠ [])
    (hl : alookup (shuffle_buckets debug train cd rg).sample_dict k = some l) :
    (alookup cd k = none → ∀ e ∈ l, e.2.2 = false) ∧
    (∀ ce, alookup cd k = some ce →
       (l.length % 2 = 0 ∧
        ∀ i (hi : i < l.length), (l.get ⟨i, hi⟩).2.2 = decide (i % 2 = 1)) ∧
       ∀ e ∈ l, e.2.2 = true → e ∈ ce) := by
  have hcd2 : ∀ k' ce, alookup cd k' = some ce → (∀ e ∈ ce, e.2.2 = true) ∧ ce ≠ [] := by
    intro k' ce hc
    have hm := alookup_mem _ _ _ hc
    exact ⟨fun e he => hcd (k', ce) hm e he, hcdne (k', ce) hm⟩
  exact shuffle_go_inv debug train cd rg hpe htr hcd2
    (if debug then train.map Prod.fst else rg.permKeys (train.map Prod.fst)) [] [] [] 0
    (fun k1 l1 hl1 => by simp [alookup] at hl1) k l hl

/-- Concrete bucket key for the C4 witness. -/
def kW4 : BKey := (32, 32, 0)

/-- Concrete instance bucket table for the C4 witness. -/
def trainW4 : AList BKey (List Entry) := [(kW4, [("i1", "a", false), ("i2", "b", false)])]

/-- Concrete reference bucket table for the C4 witness. -/
def cdW4 : AList BKey (List Entry) := [(kW4, [("r1", "c", true)])]

/-- Identity randomness: no reordering, choice stream constantly 0. -/
def rgIdW : Rng := ⟨fun ks => ks, fun _ es => es, fun _ => 0⟩

/-- The pairing list produced for `kW4` by the C4 witness run. -/
def pairLW4 : List Entry :=
  [("i1", "a", false), ("r1", "c", true), ("i2", "b", false), ("r1", "c", true)]

/-- Witness for C4 at a concrete shuffle of a two-instance/one-reference
bucket. -/
theorem dbd_claim_C4_witness :
    (alookup cdW4 kW4 = none → ∀ e ∈ pairLW4, e.2.2 = false) ∧
    (∀ ce, alookup cdW4 kW4 = some ce →
       (pairLW4.length % 2 = 0 ∧
        ∀ i (hi : i < pairLW4.length), (pairLW4.get ⟨i, hi⟩).2.2 = decide (i % 2 = 1)) ∧
       ∀ e ∈ pairLW4, e.2.2 = true → e ∈ ce) :=
  dbd_claim_C4 true trainW4 cdW4 rgIdW kW4 pairLW4
    (fun k' es => List.Perm.refl es) (by decide) (by decide) (by decide) (by decide)

theorem pair_entries_nocd (cd : AList BKey (List Entry)) (rg : Rng) (k : BKey)
    (h : alookup cd k = none) :
    ∀ (es : List Entry) (c : Nat),
      pair_entries cd rg k es c = (es, es.map (fun e => e.1), es, c) := by
  intro es
  induction es with
  | nil => intro c; rfl
  | cons e rest ih =>
      intro c
      simp only [pair_entries, h, ih c, List.map_cons]

theorem shuffle_go_debug_rng (train cd : AList BKey (List Entry)) (r1 r2 : Rng) :
    ∀ (ks : List BKey), (∀ k ∈ ks, alookup cd k = none) →
      ∀ sd bi bs c, shuffle_go true train cd r1 ks sd bi bs c =
        shuffle_go true train cd r2 ks sd bi bs c := by
  intro ks
  induction ks with
  | nil => intro _ sd bi bs c; rfl
  | cons k ks' ih =>
      intro hks sd bi bs c
      have hk := hks k (List.mem_cons_self _ _)
      have hse : shufEntries true train r1 k = shufEntries true train r2 k := rfl
      have h1 := pair_entries_nocd cd r1 k hk (shufEntries true train r1 k) c
      have h2 := pair_entries_nocd cd r2 k hk (shufEntries true train r2 k) c
      simp only [shuffle_go, h1, h2]
      rw [hse]
      exact ih (fun k' hk' => hks k' (List.mem_cons_of_mem _ hk')) _ _ _ _

/-- C8 (amended): in debug mode `shuffle()` applies no reordering of bucket
keys or instance lists, so whenever no bucket key has a same-key reference
bucket (the reference draw still consumes randomness otherwise), two runs
with different random streams produce identical pairing tables, batch index
lists and batch sample lists. -/
theorem dbd_claim_C8 (train cd : AList BKey (List Entry)) (r1 r2 : Rng)
    (h : ∀ k ∈ train.map Prod.fst, alookup cd k = none) :
    shuffle_buckets true train cd r1 = shuffle_buckets true train cd r2 := by
  unfold shuffle_buckets
  exact shuffle_go_debug_rng train cd r1 r2 (train.map Prod.fst) h [] [] [] 0

/-- Randomness whose choice stream is constantly 1. -/
def rgW2 : Rng := ⟨fun ks => ks, fun _ es => es, fun _ => 1⟩

/-- Concrete instance table for the C8 counterexample. -/
def trainW8 : AList BKey (List Entry) := [(kW4, [("i1", "a", false)])]

/-- Concrete reference table with two reference entries for the C8
counterexample. -/
def cdW8 : AList BKey (List Entry) := [(kW4, [("r1", "c", true), ("r2", "d", true)])]

/-- Counterexample to C8 as stated: with `debug_dataset = true`, two runs
differing only in the random stream backing the reference draw produce
different shuffle results — debug mode does not disable the reference draw's
randomization. -/
theorem dbd_claim_C8_cex :
    shuffle_buckets true trainW8 cdW8 rgIdW ≠ shuffle_buckets true trainW8 cdW8 rgW2 := by
  decide

/-- Witness for C8 (amended): with no reference buckets, debug-mode shuffles
under two different random streams coincide. -/
theorem dbd_claim_C8_witness :
    shuffle_buckets true trainW8 [] rgIdW = shuffle_buckets true trainW8 [] rgW2 :=
  dbd_claim_C8 trainW8 [] rgIdW rgW2 (by decide)

theorem cache_caption_shuffle_cc (cfg : Config) (o : Oracles) (s : DState) (p : SPath)
    (c : Caption) (hsh : cfg.shuffle_tags = true) :
    (ccState (cache_caption cfg o s p c)).caption_cache = s.caption_cache := by
  unfold cache_caption
  by_cases hg : 0 < cfg.numTokenizers ∧
      ((alookup s.caption_cache p).isNone = true ∨ cfg.debug_dataset = true)
  · rw [if_pos hg]
    cases htok : o.tokenize (capTrans cfg o c) cfg.not_pad_tokens with
    | error e => rfl
    | ok ids =>
        dsimp only
        rw [if_pos hsh]
        rfl
  · rw [if_neg hg]
    rfl

theorem cache_latent_cc (cfg : Config) (o : Oracles) (s : DState) (p : SPath)
    (res : Nat × Nat) :
    (exStateD (cache_latent cfg o s p res)).caption_cache = s.caption_cache := by
  unfold cache_latent
  split
  · split <;> rfl
  · rfl

theorem cob_step1_cc (cfg : Config) (o : Oracles) (st : AList SPath Latent)
    (reso : Nat × Nat) (s : DState) (p : SPath) :
    (exStateD (cob_step1 cfg o st reso s p)).caption_cache = s.caption_cache := by
  unfold cob_step1
  split
  · split
    · exact cache_latent_cc cfg o s p reso
    · rfl
  · rfl

theorem cob_step2_cc (cfg : Config) (o : Oracles) (st : AList SPath Latent)
    (reso : Nat × Nat) (s : DState) (p : SPath) (c : Caption) :
    (exStateD (cob_step2 cfg o st reso s p c)).caption_cache = s.caption_cache := by
  unfold cob_step2
  split
  · split <;> rfl
  · split <;> rfl

theorem cob_step3_shuffle (cfg : Config) (o : Oracles) (s : DState) (p : SPath)
    (c : Caption) (hsh : cfg.shuffle_tags = true) : cob_step3 cfg o s p c = .ok s := by
  unfold cob_step3
  rw [hsh]
  rfl

theorem cache_one_body_cc (cfg : Config) (o : Oracles) (st : AList SPath Latent)
    (reso : Nat × Nat) (s : DState) (e : Entry) (hsh : cfg.shuffle_tags = true) :
    (exStateD (cache_one_body cfg o st reso s e)).caption_cache = s.caption_cache := by
  unfold cache_one_body
  split
  · rename_i sE heq1
    have h1 := cob_step1_cc cfg o st reso s e.1
    rw [exStateD_error heq1] at h1
    exact h1
  · rename_i s1 heq1
    have h1 := cob_step1_cc cfg o st reso s e.1
    rw [exStateD_ok heq1] at h1
    split
    · rename_i sE heq2
      have h2 := cob_step2_cc cfg o st reso s1 e.1 e.2.1
      rw [exStateD_error heq2] at h2
      exact h2.trans h1
    · rename_i s2 heq2
      have h2 := cob_step2_cc cfg o st reso s1 e.1 e.2.1
      rw [exStateD_ok heq2] at h2
      split
      · rename_i sE heq3
        rw [cob_step3_shuffle cfg o s2 e.1 e.2.1 hsh] at heq3
        cases heq3
      · rename_i s3 heq3
        rw [cob_step3_shuffle cfg o s2 e.1 e.2.1 hsh] at heq3
        injection heq3 with h3
        subst h3
        exact h2.trans h1

theorem cache_one_cc_nil (cfg : Config) (o : Oracles) (st : AList SPath Latent)
    (reso : Nat × Nat) (s : DState) (e : Entry) (hsh : cfg.shuffle_tags = true)
    (h0 : s.caption_cache = []) :
    (exStateD (cache_one cfg o st reso s e)).caption_cache = [] := by
  have hb := cache_one_body_cc cfg o st reso s e hsh
  unfold cache_one
  split
  · rename_i t heq
    rw [exStateD_ok heq] at hb
    exact hb.trans h0
  · rename_i sE heq
    rw [exStateD_error heq] at hb
    have hE : sE.caption_cache = [] := hb.trans h0
    unfold cache_one_handler
    split
    · show (aerase sE.caption_cache e.1) = []
      rw [hE]
      rfl
    · split
      · show (aerase sE.caption_cache e.1) = []
        rw [hE]
        rfl
      · show (aerase sE.caption_cache e.1) = []
        rw [hE]
        rfl

theorem cache_images_go_cc_nil (cfg : Config) (o : Oracles) (st : AList SPath Latent)
    (reso : Nat × Nat) (hsh : cfg.shuffle_tags = true) :
    ∀ (es : List Entry) (s : DState), s.caption_cache = [] →
      (exStateD (cache_images_go cfg o st reso s es)).caption_cache = [] := by
  intro es
  induction es with
  | nil => intro s h0; exact h0
  | cons e rest ih =>
      intro s h0
      have h1 := cache_one_cc_nil cfg o st reso s e hsh h0
      unfold cache_images_go
      split
      · rename_i s1 heq
        rw [exStateD_ok heq] at h1
        exact ih s1 h1
      · rename_i sE heq
        rw [exStateD_error heq] at h1
        exact h1

theorem li_image_error (o : Oracles) (s : DState) (p : SPath) (res : Nat × Nat)
    (s' : DState) (h : li_image o s p res = .error s') : s' = s := by
  unfold li_image at h
  split at h
  · split at h
    · cases h
    · injection h with h2
      exact h2.symm
  · split at h
    · cases h
    · injection h with h2
      exact h2.symm

theorem load_image_cc (cfg : Config) (o : Oracles) (s : DState) (p : SPath) (c : Caption)
    (res : Nat × Nat) (hsh : cfg.shuffle_tags = true) :
    (liState (load_image cfg o s p c res)).caption_cache = s.caption_cache := by
  unfold load_image
  split
  · rfl
  · split
    · rename_i s' heq
      rw [li_image_error o s p res s' heq]
      rfl
    · split
      · rename_i s' i2 ids heq2
        have := cache_caption_shuffle_cc cfg o s p c hsh
        rw [heq2] at this
        exact this
      · rename_i s' heq2
        have := cache_caption_shuffle_cc cfg o s p c hsh
        rw [heq2] at this
        exact this

/-- C7: when tag shuffling is on, the caption-id cache is never written —
`cache_caption` leaves it untouched and recomputes fresh ids from the shuffled
caption on every access, a whole materialization sweep keeps it empty, and
item retrieval leaves it unchanged; when tag shuffling is off, `cache_caption`
memoizes the computed ids under the path and the cache lookup returns them. -/
theorem dbd_claim_C7 (cfg : Config) (o : Oracles) :
    (cfg.shuffle_tags = true →
      (∀ s p c, (ccState (cache_caption cfg o s p c)).caption_cache = s.caption_cache) ∧
      (∀ s p c ids, 0 < cfg.numTokenizers → alookup s.caption_cache p = none →
        o.tokenize (capTrans cfg o c) cfg.not_pad_tokens = .ok ids →
        cache_caption cfg o s p c = .ok (s, capTrans cfg o c, some ids)) ∧
      (∀ (staging : AList SPath Latent) (reso : Nat × Nat) (s : DState) (es : List Entry),
        s.caption_cache = [] →
        (exStateD (cache_images cfg o staging reso s es)).caption_cache = []) ∧
      (∀ s p c res, (liState (load_image cfg o s p c res)).caption_cache =
        s.caption_cache)) ∧
    (cfg.shuffle_tags = false →
      ∀ s p c ids, 0 < cfg.numTokenizers → alookup s.caption_cache p = none →
        o.tokenize (capTrans cfg o c) cfg.not_pad_tokens = .ok ids →
        cache_caption cfg o s p c =
          .ok ({s with caption_cache := ainsert s.caption_cache p ids},
               capTrans cfg o c, some ids) ∧
        alookup (ainsert s.caption_cache p ids) p = some ids) := by
  constructor
  · intro hsh
    refine ⟨fun s p c => cache_caption_shuffle_cc cfg o s p c hsh, ?_, ?_, ?_⟩
    · intro s p c ids hnt hnone htok
      unfold cache_caption
      rw [if_pos ⟨hnt, Or.inl (by rw [hnone]; rfl)⟩, htok, hsh]
      rfl
    · intro staging reso s es h0
      unfold cache_images
      split
      · rename_i s1 heq
        have h1 := cache_images_go_cc_nil cfg o staging reso hsh es s h0
        rw [exStateD_ok heq] at h1
        exact h1
      · rename_i sE heq
        have h1 := cache_images_go_cc_nil cfg o staging reso hsh es s h0
        rw [exStateD_error heq] at h1
        exact h1
    · intro s p c res
      exact load_image_cc cfg o s p c res hsh
  · intro hsh
    intro s p c ids hnt hnone htok
    constructor
    · unfold cache_caption
      rw [if_pos ⟨hnt, Or.inl (by rw [hnone]; rfl)⟩, htok, hsh]
      rfl
    · rw [alookup_ainsert]
      rw [if_pos rfl]

/-- Shuffle-on configuration with one tokenizer. -/
def cfgSh : Config := ⟨1, true, false, false, false, false⟩

/-- Shuffle-off configuration with one tokenizer. -/
def cfgNoSh : Config := ⟨1, false, false, false, false, false⟩

/-- Witness for C7 at a concrete shuffle-on configuration and a concrete
shuffle-off configuration. -/
theorem dbd_claim_C7_witness :
    (ccState (cache_caption cfgSh oW dstate0 "p" "c")).caption_cache =
      dstate0.caption_cache ∧
    cache_caption cfgNoSh oW dstate0 "p" "c" =
      .ok ({dstate0 with caption_cache := ainsert dstate0.caption_cache "p" 9},
           capTrans cfgNoSh oW "c", some 9) :=
  ⟨((dbd_claim_C7 cfgSh oW).1 rfl).1 dstate0 "p" "c",
   ((dbd_claim_C7 cfgNoSh oW).2 rfl dstate0 "p" "c" 9
      (by decide) (by decide) rfl).1⟩

/-- SDXL configuration (two tokenizers), no VAE, shuffle off, debug off. -/
def cfgC1 : Config := ⟨2, false, false, false, false, false⟩

/-- Oracles for the C1 run: embeddings succeed for both captions; the
tokenizer raises on caption `"c"` and succeeds on caption `"d"`. -/
def oC1 : Oracles :=
  ⟨fun _ _ => .ok 7,
   fun _ c => if c = "c" then .ok (1, 2) else .ok (3, 4),
   fun c _ => if c = "c" then .error () else .ok 9,
   fun c => c, fun c => c, fun _ _ => .ok 3, fun n => n⟩

/-- The C1 run: two samples, empty staging cache; the first sample's caption
tokenization raises after its conditioning tensors were stored. -/
def runC1 : Except DState DState :=
  cache_images cfgC1 oC1 [] (512, 512) dstate0 [("a", "c", false), ("b", "d", false)]

/-- C1 (code-bug evidence): sample `"a"` raises while computing its caption
artifact after `sdxl_cache["a"]` was written; the pass continues and finishes
normally with `"b"` processed, `"a"` evicted from `latents_cache`,
`caption_cache` and the flattened lists — but `"a"` is still present in
`sdxl_cache`, violating the all-three-mappings eviction the claim states. -/
theorem dbd_claim_C1 :
    isOkD runC1 = true ∧
    alookup (exStateD runC1).sdxl_cache "a" = some (1, 2) ∧
    alookup (exStateD runC1).latents_cache "a" = none ∧
    alookup (exStateD runC1).caption_cache "a" = none ∧
    (exStateD runC1).sample_indices = ["b"] ∧
    (exStateD runC1).sample_cache = [("b", "d", false)] := by
  decide

/-- Single-tokenizer configuration with a VAE, shuffle off, debug off. -/
def cfgC2 : Config := ⟨1, false, false, false, false, true⟩

/-- The C2 run: one sample, empty staging cache, every collaborator (VAE,
tokenizer) succeeding. -/
def runC2 : Except DState DState :=
  cache_images cfgC2 oW [] (512, 512) {dstate0 with cache_latents := true}
    [("a", "c", false)]

/-- The contrast run: identical except the sample's latent is staged on disk. -/
def runC2b : Except DState DState :=
  cache_images cfgC2 oW [("a", 5)] (512, 512) {dstate0 with cache_latents := true}
    [("a", "c", false)]

/-- C2 (code-bug evidence): with one tokenizer, a configured VAE and every
collaborator succeeding, a sample whose path is absent from the staging map is
dropped — the misplaced `else` runs `latents_cache[img_path]` on the staging
dict, the `KeyError` evicts the freshly computed latent, and the sample never
reaches the flattened lists. The same sample staged on disk goes through. -/
theorem dbd_claim_C2 :
    isOkD runC2 = true ∧
    (exStateD runC2).latents_cache = [] ∧
    (exStateD runC2).sample_indices = [] ∧
    (exStateD runC2).sample_cache = [] ∧
    isOkD runC2b = true ∧
    (exStateD runC2b).sample_indices = ["a"] ∧
    alookup (exStateD runC2b).latents_cache "a" = some 5 := by
  decide

end DbData
